import Mathlib

/-!
Shallow embedding of the resilient API-access layer of the repository
(src/redirect_uri.rs, src/spotify_api.rs, src/authentication.rs).

Conventions of the embedding:
- Pure string manipulation from the Rust code is translated to executable
  functions on `List Char` / `String`.  Rust whitespace/trim predicates are
  Unicode; the inputs relevant here are ASCII, so the ASCII subset is used.
- I/O is turned into explicit data: an accepted TCP connection becomes a
  constructor carrying the decoded request bytes, the result of the worker
  reply channel becomes a value of an inductive type, the random jitter and
  the clock become functions supplied in an environment record.
- Machine integers (u64) are Nat with explicit reduction modulo 2^64 where
  the Rust arithmetic can wrap.
-/

/-! ## Character-level helpers mirroring the Rust std string functions -/

/-- ASCII fragment of the whitespace predicate used by the Rust functions
char::is_whitespace / str::split_whitespace / str::trim. -/
def isRustWhitespace (c : Char) : Bool :=
  c == ' ' || c == '\t' || c == '\n' || c == '\r' || c == '\x0b' || c == '\x0c'

/-- Accumulator-based splitter behind `splitWhitespace`. -/
def splitWsAux : List Char → List Char → List (List Char)
  | [], acc => if acc.isEmpty then [] else [acc.reverse]
  | c :: cs, acc =>
      if isRustWhitespace c then
        if acc.isEmpty then splitWsAux cs [] else acc.reverse :: splitWsAux cs []
      else
        splitWsAux cs (c :: acc)

/-- Model of Rust str::split_whitespace: maximal runs of non-whitespace. -/
def splitWhitespace (s : String) : List String :=
  (splitWsAux s.data []).map (fun cs => String.mk cs)

/-- Accumulator-based splitter on a separator character; empty pieces are
kept, so this matches Rust str::split(sep). -/
def splitOnCharAux (sep : Char) : List Char → List Char → List (List Char)
  | [], acc => [acc.reverse]
  | c :: cs, acc =>
      if c == sep then acc.reverse :: splitOnCharAux sep cs []
      else splitOnCharAux sep cs (c :: acc)

/-- Strip a single trailing carriage return, as Rust str::lines does. -/
def stripTrailingCR (cs : List Char) : List Char :=
  match cs.reverse with
  | '\r' :: rest => rest.reverse
  | _ => cs

/-- Drop a final empty piece, so that a trailing newline does not produce an
empty final line and the empty string yields no lines, as in Rust. -/
def dropFinalEmpty (l : List (List Char)) : List (List Char) :=
  match l.reverse with
  | [] => []
  | last :: front => if last.isEmpty then front.reverse else l

/-- Model of Rust str::lines. -/
def rustLines (s : String) : List String :=
  ((dropFinalEmpty (splitOnCharAux '\n' s.data [])).map stripTrailingCR).map
    (fun cs => String.mk cs)

/-- ASCII lowercasing of one character, the fragment of Rust
str::to_lowercase relevant to header names. -/
def asciiLower (c : Char) : Char :=
  if 'A' ≤ c && c ≤ 'Z' then Char.ofNat (c.toNat + 32) else c

/-- Boolean list prefix test (Rust str::starts_with). -/
def isPrefixCs : List Char → List Char → Bool
  | [], _ => true
  | _ :: _, [] => false
  | p :: ps, c :: cs => p == c && isPrefixCs ps cs

/-- Model of Rust str::trim restricted to ASCII whitespace. -/
def trimChars (cs : List Char) : List Char :=
  ((cs.dropWhile isRustWhitespace).reverse.dropWhile isRustWhitespace).reverse

/-! ## redirect_uri.rs -/

/-- Response written back on a connection: the fixed 200 HTML success page or
a 400 text/plain body (respond_with_success / respond_with_error). -/
inductive HttpResp where
  | success
  | badRequest (body : String)
deriving DecidableEq, Repr

/-- Translation of handle_connection (src/redirect_uri.rs lines 24-49),
applied to the request bytes decoded by String::from_utf8_lossy.  Returns
the value of the Rust function together with the response written to the
stream. -/
def handle_connection (request : String) : Option String × HttpResp :=
  match splitWhitespace request with
  | _ :: path :: _ =>
      let host :=
        ((((rustLines request).find?
              (fun line => isPrefixCs "host:".data (line.data.map asciiLower))).bind
            (fun line => (splitOnCharAux ':' line.data []).get? 1)).map
          (fun cs => String.mk (trimChars cs))).getD "127.0.0.1:8888"
      (some ("http://" ++ host ++ path), HttpResp.success)
  | _ => (none, HttpResp.badRequest "400 - Bad Request - Malformed request")

/-- Event produced by the blocking accept loop: a connection whose read
succeeded and decoded to the given request, a connection whose read failed
(stream.read(..).ok()? returns early, nothing is written back), or an error
from listener.incoming(). -/
inductive ConnEvent where
  | accepted (request : String)
  | readErr
  | acceptErr (msg : String)
deriving DecidableEq, Repr

/-- Loop body of redirect_uri_web_server over the incoming connections. -/
def serverLoop : List ConnEvent → Except String String × List HttpResp
  | [] => (Except.error "No valid callback received", [])
  | ConnEvent.accepted req :: rest =>
      match handle_connection req with
      | (some url, resp) => (Except.ok url, [resp])
      | (none, resp) =>
          let r := serverLoop rest
          (r.fst, resp :: r.snd)
  | ConnEvent.readErr :: rest => serverLoop rest
  | ConnEvent.acceptErr e :: _ =>
      (Except.error ("Connection error: " ++ e), [])

/-- Translation of redirect_uri_web_server (src/redirect_uri.rs lines 4-22).
The TcpListener::bind outcome is `bindErr` (some message on failure) and the
stream of accepted connections is `conns`.  The second component is the list
of responses written, in order. -/
def redirect_uri_web_server (port : Nat) (bindErr : Option String)
    (conns : List ConnEvent) : Except String String × List HttpResp :=
  match bindErr with
  | some e =>
      (Except.error ("Failed to bind to port " ++ toString port ++ ": " ++ e), [])
  | none => serverLoop conns

/-! ## spotify_api.rs: constants, token state and update_token -/

def MAX_RETRIES : Nat := 3

def MAX_BACKOFF_SECS : Nat := 60

def U64_MOD : Nat := 2 ^ 64

/-- Model of rspotify::Token as stored in the shared client state.
Instants and durations are integer seconds. -/
structure Token where
  access_token : String
  expires_in : Int
  scopes : List String
  expires_at : Option Int
  refresh_token : Option String
deriving DecidableEq, Repr

/-- Token payload carried by the worker reply channel (expires_in is a
std::time::Duration, i.e. non-negative seconds). -/
structure WorkerToken where
  access_token : String
  expires_in : Nat
  scopes : List String
deriving DecidableEq, Repr

/-- The two pieces of shared mutable state written by update_token: the
rspotify client token (self.api.token) and self.token_expiration, an
absolute instant in integer seconds. -/
structure SharedState where
  token : Option Token
  token_expiration : Int
deriving DecidableEq, Repr

/-- Result of token_rx.recv() in update_token: the channel was closed
(recv returned Err), the worker replied with no token, or the worker
replied with a fresh token. -/
inductive Reply where
  | recvErr
  | gotNone
  | gotToken (t : WorkerToken)
deriving DecidableEq, Repr

/-- Shape of the value update_token hands back to its caller, together with
the shared state once the spawned task has been awaited: None (renewal not
necessary yet), Some(handle) whose completion leaves the state at st, or
the panic on a missing worker channel. -/
inductive UpdateTokenResult where
  | noHandle
  | handle (st : SharedState)
  | panicked
deriving DecidableEq, Repr

/-- Token installed by the update_token task from a worker reply (expires_at
and refresh_token are set to None by the source). -/
def tokenFromWorker (t : WorkerToken) : Token :=
  { access_token := t.access_token
    expires_in := (t.expires_in : Int)
    scopes := t.scopes
    expires_at := none
    refresh_token := none }

/-- Translation of WebApi::update_token (src/spotify_api.rs lines 97-141).
now is the instant read from Utc::now (the two reads inside the function are
modelled as the same instant); reply is what token_rx.recv() yields once the
worker has processed the RequestToken command. -/
def update_token (now : Int) (workerSet : Bool) (reply : Reply)
    (st : SharedState) : UpdateTokenResult :=
  if st.token_expiration - now > 60 * 5 then UpdateTokenResult.noHandle
  else if workerSet then
    match reply with
    | Reply.gotToken t =>
        UpdateTokenResult.handle
          { token := some (tokenFromWorker t)
            token_expiration := now + (t.expires_in : Int) }
    | _ => UpdateTokenResult.handle st
  else UpdateTokenResult.panicked

/-- Caller-visible part of update_token: the Option JoinHandle of unit the
Rust function returns (the panic case never returns). -/
def update_token_visible : UpdateTokenResult → Option (Option Unit)
  | UpdateTokenResult.noHandle => some none
  | UpdateTokenResult.handle _ => some (some ())
  | UpdateTokenResult.panicked => none

/-! ## spotify_api.rs: api_with_retry -/

/-- Error payload of rspotify HttpError as matched by api_with_retry: a
response with a status code (carrying the raw Retry-After header value when
present) or any other HTTP-layer error. -/
inductive HttpErr where
  | statusCode (status : Nat) (retryAfter : Option String)
  | otherHttp
deriving DecidableEq, Repr

/-- Error payload of rspotify ClientError as matched by api_with_retry. -/
inductive ClientErr where
  | http (e : HttpErr)
  | other (msg : String)
deriving DecidableEq, Repr

/-- Result of one invocation of the wrapped api_call closure. -/
inductive CallResult (R : Type) where
  | ok (v : R)
  | err (e : ClientErr)
deriving DecidableEq, Repr

/-- Boolean test for a failed invocation. -/
def isErr {R : Type} : CallResult R → Bool
  | CallResult.ok _ => false
  | CallResult.err _ => true

/-- Environment of one api_with_retry call: the outcome of the k-th
invocation of the closure, the jitter drawn and the clock read while
handling the error of the k-th invocation, the worker reply for a refresh
triggered at the k-th invocation, and whether the worker channel is set. -/
structure RetryEnv (R : Type) where
  call : Nat → CallResult R
  jitter : Nat → Nat
  now : Nat → Int
  reply : Nat → Reply
  workerSet : Bool

/-- Observable outcome of an api_with_retry run (from the current loop
position onwards): returned value, number of closure invocations, seconds
slept in order, number of refresh requests sent to the worker, final shared
state, final last_error, and whether update_token panicked. -/
structure RunResult (R : Type) where
  value : Option R
  calls : Nat
  sleeps : List Nat
  refreshes : Nat
  state : SharedState
  lastError : Option String
  panicked : Bool
deriving DecidableEq, Repr

/-- Model of Rust str::parse::<u64>: an optional leading plus sign, then at
least one ASCII digit, and the value must fit in a u64 (overflow is an
error, not a wrap). -/
def parseDigits : List Char → Option Nat → Option Nat
  | [], acc => acc
  | c :: cs, acc =>
      if c.isDigit then
        parseDigits cs (some ((acc.getD 0) * 10 + (c.toNat - '0'.toNat)))
      else none

def parse_u64 (s : String) : Option Nat :=
  let cs := match s.data with
    | '+' :: rest => rest
    | cs => cs
  match parseDigits cs none with
  | some n => if n < U64_MOD then some n else none
  | none => none

/-- Backoff computed in the 429 branch of api_with_retry:
(retry_after + jitter) and the shift/product are u64 arithmetic, hence the
reductions modulo 2^64. -/
def backoff429 (retry_after jitter attempt : Nat) : Nat :=
  let base_delay := (retry_after + jitter) % U64_MOD
  min ((base_delay * ((1 <<< attempt) % U64_MOD)) % U64_MOD) MAX_BACKOFF_SECS

/-- Backoff computed in the 502..=504 branch of api_with_retry
(2u64.pow(attempt), capped at MAX_BACKOFF_SECS). -/
def backoff5xx (attempt : Nat) : Nat :=
  min ((2 ^ attempt) % U64_MOD) MAX_BACKOFF_SECS

/-- Loop of api_with_retry (src/spotify_api.rs lines 143-228).  fuel is
MAX_RETRIES - attempt at the top-level entry; the while condition
attempt < MAX_RETRIES is fuel > 0.  Counters in the result are counted from
the current position on. -/
def retryAux {R : Type} (env : RetryEnv R) :
    Nat → Nat → SharedState → Option String → RunResult R
  | 0, _, st, lastError =>
      { value := none, calls := 0, sleeps := [], refreshes := 0,
        state := st, lastError := lastError, panicked := false }
  | fuel + 1, attempt, st, lastError =>
      match env.call attempt with
      | CallResult.ok v =>
          { value := some v, calls := 1, sleeps := [], refreshes := 0,
            state := st, lastError := lastError, panicked := false }
      | CallResult.err (ClientErr.http (HttpErr.statusCode status hdr)) =>
          if status = 429 then
            let retry_after := (hdr.bind parse_u64).getD 1
            let backoff := backoff429 retry_after (env.jitter attempt) attempt
            let r := retryAux env fuel (attempt + 1) st
              (some ("Rate limited: " ++ toString status))
            { value := r.value, calls := r.calls + 1,
              sleeps := backoff :: r.sleeps, refreshes := r.refreshes,
              state := r.state, lastError := r.lastError,
              panicked := r.panicked }
          else if status = 401 then
            match update_token (env.now attempt) env.workerSet
                (env.reply attempt) st with
            | UpdateTokenResult.handle st' =>
                let r := retryAux env fuel (attempt + 1) st' lastError
                { value := r.value, calls := r.calls + 1, sleeps := r.sleeps,
                  refreshes := r.refreshes + 1, state := r.state,
                  lastError := r.lastError, panicked := r.panicked }
            | UpdateTokenResult.noHandle =>
                { value := none, calls := 1, sleeps := [], refreshes := 0,
                  state := st, lastError := some "Token refresh failed",
                  panicked := false }
            | UpdateTokenResult.panicked =>
                { value := none, calls := 1, sleeps := [], refreshes := 0,
                  state := st, lastError := lastError, panicked := true }
          else if 502 ≤ status ∧ status ≤ 504 then
            let backoff := backoff5xx attempt
            let r := retryAux env fuel (attempt + 1) st
              (some ("Server error: " ++ toString status))
            { value := r.value, calls := r.calls + 1,
              sleeps := backoff :: r.sleeps, refreshes := r.refreshes,
              state := r.state, lastError := r.lastError,
              panicked := r.panicked }
          else
            { value := none, calls := 1, sleeps := [], refreshes := 0,
              state := st, lastError := some ("HTTP error: " ++ toString status),
              panicked := false }
      | CallResult.err (ClientErr.http HttpErr.otherHttp) =>
          { value := none, calls := 1, sleeps := [], refreshes := 0,
            state := st, lastError := some "Unknown HTTP error",
            panicked := false }
      | CallResult.err (ClientErr.other msg) =>
          { value := none, calls := 1, sleeps := [], refreshes := 0,
            state := st, lastError := some ("API error: " ++ msg),
            panicked := false }

/-- Translation of WebApi::api_with_retry: the loop entered with attempt = 0
and last_error = None. -/
def api_with_retry {R : Type} (env : RetryEnv R) (st : SharedState) :
    RunResult R :=
  retryAux env MAX_RETRIES 0 st none

/-! ## authentication.rs: token cache loading and the needs_auth decision -/

/-- State of the token cache file at the fixed path: missing, present but
unreadable, or readable with the given contents. -/
inductive CacheFile where
  | absent
  | readError (msg : String)
  | content (s : String)
deriving DecidableEq, Repr

/-- Environment of one authenticate call: the cache file, the external
serde_json parser, the external rspotify Token::is_expired predicate, the
outcome of the external rspotify refresh_token call, and the outcome of the
fs::write performed by save_token_to_file after a successful refresh. -/
structure AuthEnv where
  file : CacheFile
  parse : String → Except String Token
  tokExpired : Token → Bool
  refresh : Except String Token
  save1 : Except String Unit

/-- Translation of load_token_from_file (src/authentication.rs lines 60-76):
the function result paired with the token installed into the client (none
is installed on any non-Ok(true) path; the client starts with no token). -/
def load_token_from_file (env : AuthEnv) :
    Except String Bool × Option Token :=
  match env.file with
  | CacheFile.absent => (Except.ok false, none)
  | CacheFile.readError msg => (Except.error ("Read error: " ++ msg), none)
  | CacheFile.content s =>
      match env.parse s with
      | Except.error m => (Except.error ("Parse error: " ++ m), none)
      | Except.ok tok => (Except.ok true, some tok)

/-- Translation of the needs_auth computation in authenticate
(src/authentication.rs lines 167-201), with the save_token_to_file error
after a successful refresh propagated out of authenticate by the question
mark operator.  On Ok the pair is (needs_auth, token saved to the cache
after a refresh). -/
def authenticate_needs_auth (env : AuthEnv) :
    Except String (Bool × Bool) :=
  match load_token_from_file env with
  | (Except.ok true, some tok) =>
      if env.tokExpired tok then
        match env.refresh with
        | Except.ok _ =>
            match env.save1 with
            | Except.ok _ => Except.ok (false, true)
            | Except.error e => Except.error e
        | Except.error _ => Except.ok (true, false)
      else Except.ok (false, false)
  | (Except.ok true, none) => Except.ok (true, false)
  | (Except.ok false, _) => Except.ok (true, false)
  | (Except.error _, _) => Except.ok (true, false)

/-! ## spotify_api.rs: overwrite_playlist -/

/-- One remote playlist mutation request issued by overwrite_playlist:
playlist_replace_items with the given payload, or playlist_add_items
(through append_tracks, position None). -/
inductive PlaylistReq (A : Type) where
  | replaceItems (tracks : List A)
  | appendItems (tracks : List A)
deriving DecidableEq, Repr

/-- Payload of a request. -/
def reqPayload {A : Type} : PlaylistReq A → List A
  | PlaylistReq.replaceItems l => l
  | PlaylistReq.appendItems l => l

/-- The while-let loop over the remainder inside overwrite_playlist
(src/spotify_api.rs lines 309-324), with structural fuel: each iteration
takes the next chunk of at most 100 tracks, issues an append request for
it, and continues only if the request succeeded and a remainder is left.
ok i is the success of the i-th request of the overall overwrite_playlist
call.  Any fuel at least rem.length makes the fuel irrelevant (the loop
consumes 100 list elements per unit of fuel). -/
def appendLoopFuel {A : Type} (ok : Nat → Bool) :
    Nat → List A → Nat → List (List A)
  | 0, rem, _ => [rem.take 100]
  | fuel + 1, rem, i =>
      if ok i && !(rem.drop 100).isEmpty then
        rem.take 100 :: appendLoopFuel ok fuel (rem.drop 100) (i + 1)
      else [rem.take 100]

/-- The remainder loop entered with enough fuel for its list argument. -/
def append_loop {A : Type} (ok : Nat → Bool) (rem : List A) (i : Nat) :
    List (List A) :=
  appendLoopFuel ok rem.length rem i

/-- Translation of overwrite_playlist (src/spotify_api.rs lines 285-328):
the list of remote requests issued, in order, when the i-th issued request
succeeds iff ok i.  The first 100 tracks go into playlist_replace_items; on
its success the remainder, if any, is appended in chunks of at most 100. -/
def overwrite_playlist {A : Type} (tracks : List A) (ok : Nat → Bool) :
    List (PlaylistReq A) :=
  let first := tracks.take 100
  let rest := tracks.drop 100
  PlaylistReq.replaceItems first ::
    (if ok 0 then
      (if rest.isEmpty then []
       else (append_loop ok rest 1).map PlaylistReq.appendItems)
     else [])

/-! ## Theorems about redirect_uri.rs (claims C1 and C8) -/

theorem hc_snd_of_fst_none (r : String)
    (h : (handle_connection r).fst = none) :
    (handle_connection r).snd
      = HttpResp.badRequest "400 - Bad Request - Malformed request" := by
  rcases hs : splitWhitespace r with _ | ⟨a, t⟩
  · simp [handle_connection, hs]
  · rcases t with _ | ⟨b, t2⟩
    · simp [handle_connection, hs]
    · simp [handle_connection, hs] at h

theorem hc_eq_of_fst_some (r url : String)
    (h : (handle_connection r).fst = some url) :
    handle_connection r = (some url, HttpResp.success) := by
  rcases hs : splitWhitespace r with _ | ⟨a, t⟩
  · simp [handle_connection, hs] at h
  · rcases t with _ | ⟨b, t2⟩
    · simp [handle_connection, hs] at h
    · simp only [handle_connection, hs] at h ⊢
      simp_all

theorem hc_pair_of_fst_none (r : String)
    (h : (handle_connection r).fst = none) :
    handle_connection r
      = (none, HttpResp.badRequest "400 - Bad Request - Malformed request") := by
  have h2 := hc_snd_of_fst_none r h
  rcases hp : handle_connection r with ⟨o, resp⟩
  rw [hp] at h h2
  simp_all

theorem serverLoop_drain (pre : List ConnEvent) (req url : String)
    (post : List ConnEvent)
    (hpre : ∀ e ∈ pre, ∃ r, e = ConnEvent.accepted r
      ∧ (handle_connection r).fst = none)
    (hreq : (handle_connection req).fst = some url) :
    serverLoop (pre ++ ConnEvent.accepted req :: post)
      = (Except.ok url,
         pre.map
           (fun _ => HttpResp.badRequest "400 - Bad Request - Malformed request")
           ++ [HttpResp.success]) := by
  induction pre with
  | nil =>
      simp only [List.nil_append, List.map_nil]
      rw [serverLoop, hc_eq_of_fst_some req url hreq]
  | cons e pre ih =>
      obtain ⟨r, he, hr⟩ := hpre e (List.mem_cons_self e pre)
      subst he
      have ihh := ih (fun x hx => hpre x (List.mem_cons_of_mem _ hx))
      simp only [List.cons_append]
      rw [serverLoop, hc_pair_of_fst_none r hr]
      simp [ihh]

/-- C8: the accept loop of redirect_uri_web_server never terminates on a
malformed request: every earlier connection whose request lacks a second
token is answered with the 400 Malformed request body and the loop keeps
going, the first connection with at least a method and a path token yields
the Ok return value, and a bind error or an error from the listener makes
the function return Err immediately. -/
theorem redirect_uri_web_server_survives_malformed
    (pre post : List ConnEvent) (req url : String) (port : Nat)
    (hpre : ∀ e ∈ pre, ∃ r, e = ConnEvent.accepted r
      ∧ (handle_connection r).fst = none)
    (hreq : (handle_connection req).fst = some url) :
    redirect_uri_web_server port none (pre ++ ConnEvent.accepted req :: post)
      = (Except.ok url,
         pre.map
           (fun _ => HttpResp.badRequest "400 - Bad Request - Malformed request")
           ++ [HttpResp.success])
    ∧ (∀ e, redirect_uri_web_server port (some e)
          (pre ++ ConnEvent.accepted req :: post)
        = (Except.error
            ("Failed to bind to port " ++ toString port ++ ": " ++ e), []))
    ∧ (∀ e rest, serverLoop (ConnEvent.acceptErr e :: rest)
        = (Except.error ("Connection error: " ++ e), [])) := by
  refine ⟨?_, ?_, ?_⟩
  · simpa [redirect_uri_web_server] using
      serverLoop_drain pre req url post hpre hreq
  · intro e
    rfl
  · intro e rest
    rfl

theorem redirect_uri_web_server_survives_malformed_witness :
    redirect_uri_web_server 8888 none
      [ConnEvent.accepted "bad", ConnEvent.accepted "GET /x"]
      = (Except.ok "http://127.0.0.1:8888/x",
         [HttpResp.badRequest "400 - Bad Request - Malformed request",
          HttpResp.success]) :=
  (redirect_uri_web_server_survives_malformed
    [ConnEvent.accepted "bad"] [] "GET /x" "http://127.0.0.1:8888/x" 8888
    (by
      intro e he
      simp only [List.mem_singleton] at he
      subst he
      exact ⟨"bad", rfl, by decide⟩)
    (by decide)).1

/-- C1: evaluation of handle_connection at the request of the claim.  The
Rust code extracts the host with line.split(given colon).nth(1), which cuts
the Host header value at the second colon, so the port is dropped from the
reconstructed URL: the code returns http://127.0.0.1/callback?code=ABC123
while the claim (and the intent visible in the unwrap_or default, which
keeps its port) demands http://127.0.0.1:8888/callback?code=ABC123. -/
theorem handle_connection_drops_host_port :
    (handle_connection
        "GET /callback?code=ABC123 HTTP/1.1\r\nHost: 127.0.0.1:8888\r\n\r\n").fst
      = some "http://127.0.0.1/callback?code=ABC123"
    ∧ some "http://127.0.0.1/callback?code=ABC123"
        ≠ some "http://127.0.0.1:8888/callback?code=ABC123" := by
  constructor
  · decide
  · decide

/-! ## Helper lemmas about the retry loop -/

theorem retryAux_step {R : Type} (env : RetryEnv R) (fuel a : Nat)
    (st : SharedState) (le : Option String) :
    (∃ v, env.call a = CallResult.ok v ∧
      retryAux env (fuel + 1) a st le
        = { value := some v, calls := 1, sleeps := [], refreshes := 0,
            state := st, lastError := le, panicked := false })
    ∨ (∃ st' le' ds dr, isErr (env.call a) = true ∧ dr ≤ 1 ∧
        retryAux env (fuel + 1) a st le
          = { value := (retryAux env fuel (a + 1) st' le').value,
              calls := (retryAux env fuel (a + 1) st' le').calls + 1,
              sleeps := ds ++ (retryAux env fuel (a + 1) st' le').sleeps,
              refreshes := (retryAux env fuel (a + 1) st' le').refreshes + dr,
              state := (retryAux env fuel (a + 1) st' le').state,
              lastError := (retryAux env fuel (a + 1) st' le').lastError,
              panicked := (retryAux env fuel (a + 1) st' le').panicked })
    ∨ (isErr (env.call a) = true
        ∧ (retryAux env (fuel + 1) a st le).value = none
        ∧ (retryAux env (fuel + 1) a st le).calls = 1
        ∧ (retryAux env (fuel + 1) a st le).refreshes = 0) := by
  rcases hc : env.call a with v | e
  · exact Or.inl ⟨v, rfl, by simp [retryAux, hc]⟩
  · rcases e with e' | msg
    · rcases e' with ⟨status, hdr⟩ | _
      · by_cases h429 : status = 429
        · subst h429
          refine Or.inr (Or.inl ⟨st, some ("Rate limited: " ++ toString 429),
            [backoff429 ((hdr.bind parse_u64).getD 1) (env.jitter a) a], 0,
            by simp [isErr, hc], by omega, ?_⟩)
          simp [retryAux, hc]
        · by_cases h401 : status = 401
          · subst h401
            rcases hu : update_token (env.now a) env.workerSet (env.reply a) st
              with _ | st' | _
            · refine Or.inr (Or.inr ⟨by simp [isErr, hc], ?_, ?_, ?_⟩) <;>
                simp [retryAux, hc, hu]
            · refine Or.inr (Or.inl ⟨st', le, [], 1,
                by simp [isErr, hc], by omega, ?_⟩)
              simp [retryAux, hc, hu]
            · refine Or.inr (Or.inr ⟨by simp [isErr, hc], ?_, ?_, ?_⟩) <;>
                simp [retryAux, hc, hu]
          · by_cases h5 : 502 ≤ status ∧ status ≤ 504
            · refine Or.inr (Or.inl ⟨st,
                some ("Server error: " ++ toString status),
                [backoff5xx a], 0, by simp [isErr, hc], by omega, ?_⟩)
              simp [retryAux, hc, h429, h401, h5]
            · refine Or.inr (Or.inr ⟨by simp [isErr, hc], ?_, ?_, ?_⟩) <;>
                simp [retryAux, hc, h429, h401, h5]
      · refine Or.inr (Or.inr ⟨by simp [isErr, hc], ?_, ?_, ?_⟩) <;>
          simp [retryAux, hc]
    · refine Or.inr (Or.inr ⟨by simp [isErr, hc], ?_, ?_, ?_⟩) <;>
        simp [retryAux, hc]

theorem retryAux_calls_le {R : Type} (env : RetryEnv R) :
    ∀ (fuel a : Nat) (st : SharedState) (le : Option String),
      (retryAux env fuel a st le).calls ≤ fuel := by
  intro fuel
  induction fuel with
  | zero => intro a st le; simp [retryAux]
  | succ fuel ih =>
      intro a st le
      rcases retryAux_step env fuel a st le with
        ⟨v, _, heq⟩ | ⟨st', le', ds, dr, _, _, heq⟩ | ⟨_, _, hcalls, _⟩
      · rw [heq]; simp
      · rw [heq]
        exact Nat.succ_le_succ (ih (a + 1) st' le')
      · omega

theorem retryAux_refreshes_le_calls {R : Type} (env : RetryEnv R) :
    ∀ (fuel a : Nat) (st : SharedState) (le : Option String),
      (retryAux env fuel a st le).refreshes ≤ (retryAux env fuel a st le).calls := by
  intro fuel
  induction fuel with
  | zero => intro a st le; simp [retryAux]
  | succ fuel ih =>
      intro a st le
      rcases retryAux_step env fuel a st le with
        ⟨v, _, heq⟩ | ⟨st', le', ds, dr, _, hdr, heq⟩ | ⟨_, _, hcalls, hrefr⟩
      · rw [heq]; simp
      · rw [heq]
        have := ih (a + 1) st' le'
        simp only
        omega
      · omega

theorem retryAux_value_some {R : Type} (env : RetryEnv R) :
    ∀ (fuel a : Nat) (st : SharedState) (le : Option String) (v : R),
      (retryAux env fuel a st le).value = some v →
      1 ≤ (retryAux env fuel a st le).calls
      ∧ env.call (a + (retryAux env fuel a st le).calls - 1) = CallResult.ok v
      ∧ ∀ j, a ≤ j → j + 1 < a + (retryAux env fuel a st le).calls →
          isErr (env.call j) = true := by
  intro fuel
  induction fuel with
  | zero => intro a st le v h; simp [retryAux] at h
  | succ fuel ih =>
      intro a st le v h
      rcases retryAux_step env fuel a st le with
        ⟨w, hcw, heq⟩ | ⟨st', le', ds, dr, herr, _, heq⟩ | ⟨_, hval, _, _⟩
      · rw [heq] at h ⊢
        simp only at h ⊢
        refine ⟨by omega, ?_, ?_⟩
        · have hv : w = v := by simpa using h
          subst hv
          simpa using hcw
        · intro j hj1 hj2
          omega
      · rw [heq] at h ⊢
        simp only at h ⊢
        obtain ⟨h1, h2, h3⟩ := ih (a + 1) st' le' v h
        refine ⟨by omega, ?_, ?_⟩
        · have harith : a + ((retryAux env fuel (a + 1) st' le').calls + 1) - 1
              = a + 1 + (retryAux env fuel (a + 1) st' le').calls - 1 := by omega
          rw [harith]
          exact h2
        · intro j hj1 hj2
          rcases Nat.eq_or_lt_of_le hj1 with hja | hja
          · subst hja; exact herr
          · exact h3 j (by omega) (by omega)
      · rw [hval] at h; simp at h

/-! ## Theorems about api_with_retry (claims C5, C6, C7, C3, C2) -/

/-- C5: any api_with_retry call invokes the wrapped closure at most
MAX_RETRIES = 3 times, returns the value of the first successful invocation
as Some (every earlier invocation failed), and returns None whenever every
possible invocation fails. -/
theorem api_with_retry_bounded_first_success {R : Type} (env : RetryEnv R)
    (st : SharedState) :
    (api_with_retry env st).calls ≤ MAX_RETRIES
    ∧ (∀ v, (api_with_retry env st).value = some v →
        1 ≤ (api_with_retry env st).calls
        ∧ env.call ((api_with_retry env st).calls - 1) = CallResult.ok v
        ∧ ∀ j, j + 1 < (api_with_retry env st).calls →
            isErr (env.call j) = true)
    ∧ ((∀ k, k < MAX_RETRIES → isErr (env.call k) = true) →
        (api_with_retry env st).value = none) := by
  simp only [api_with_retry]
  refine ⟨retryAux_calls_le env MAX_RETRIES 0 st none, ?_, ?_⟩
  · intro v h
    obtain ⟨h1, h2, h3⟩ := retryAux_value_some env MAX_RETRIES 0 st none v h
    refine ⟨h1, by simpa using h2, ?_⟩
    intro j hj
    exact h3 j (Nat.zero_le j) (by omega)
  · intro hall
    by_contra hne
    rcases ho : (retryAux env MAX_RETRIES 0 st none).value with _ | v
    · exact hne ho
    · obtain ⟨h1, h2, _⟩ := retryAux_value_some env MAX_RETRIES 0 st none v ho
      have hcle := retryAux_calls_le env MAX_RETRIES 0 st none
      have hlt : (retryAux env MAX_RETRIES 0 st none).calls - 1 < MAX_RETRIES := by
        omega
      have hfail := hall _ hlt
      rw [show (0 : Nat) + (retryAux env MAX_RETRIES 0 st none).calls - 1
            = (retryAux env MAX_RETRIES 0 st none).calls - 1 by omega] at h2
      rw [h2] at hfail
      simp [isErr] at hfail

def c5EnvW : RetryEnv Nat :=
  { call := fun _ => CallResult.err (ClientErr.other "connection reset")
    jitter := fun _ => 0
    now := fun _ => 0
    reply := fun _ => Reply.gotNone
    workerSet := true }

def stLow : SharedState := { token := none, token_expiration := 0 }

theorem api_with_retry_bounded_first_success_witness :
    (api_with_retry c5EnvW stLow).value = none :=
  (api_with_retry_bounded_first_success c5EnvW stLow).2.2 (by decide)

/-- Last error recorded when api_with_retry hits a non-retryable error. -/
def fatalMsg : ClientErr → Option String
  | ClientErr.http (HttpErr.statusCode s _) => some ("HTTP error: " ++ toString s)
  | ClientErr.http HttpErr.otherHttp => some "Unknown HTTP error"
  | ClientErr.other m => some ("API error: " ++ m)

/-- Errors that api_with_retry treats as non-retryable: any HTTP status
other than 429, 401, 502, 503, 504, any non-status HTTP error, and any
non-HTTP client error. -/
def isFatalErr : ClientErr → Bool
  | ClientErr.http (HttpErr.statusCode s _) =>
      decide (¬ (s = 429 ∨ s = 401 ∨ (502 ≤ s ∧ s ≤ 504)))
  | ClientErr.http HttpErr.otherHttp => true
  | ClientErr.other _ => true

/-- C6: when an invocation of the wrapped closure fails with a
non-retryable error, the retry loop stops at once: it returns None, makes
no further invocation, performs no sleep and no refresh, and leaves the
shared state untouched.  The second conjunct instantiates this at the
top-level api_with_retry entry. -/
theorem api_with_retry_fatal_stops {R : Type} (env : RetryEnv R)
    (fuel a : Nat) (st : SharedState) (le : Option String) (e : ClientErr)
    (hc : env.call a = CallResult.err e) (hf : isFatalErr e = true) :
    retryAux env (fuel + 1) a st le
      = { value := none, calls := 1, sleeps := [], refreshes := 0,
          state := st, lastError := fatalMsg e, panicked := false }
    ∧ (a = 0 → api_with_retry env st
        = { value := none, calls := 1, sleeps := [], refreshes := 0,
            state := st, lastError := fatalMsg e, panicked := false }) := by
  have main : ∀ (fuel' : Nat) (le' : Option String),
      retryAux env (fuel' + 1) a st le'
        = { value := none, calls := 1, sleeps := [], refreshes := 0,
            state := st, lastError := fatalMsg e, panicked := false } := by
    intro fuel' le'
    rcases e with e' | msg
    · rcases e' with ⟨status, hdr⟩ | _
      · simp only [isFatalErr, decide_eq_true_eq] at hf
        push_neg at hf
        obtain ⟨h1, h2, h3⟩ := hf
        have h3' : ¬ (502 ≤ status ∧ status ≤ 504) := by
          intro hx
          exact absurd (h3 hx.1) (by omega)
        simp [retryAux, hc, h1, h2, h3', fatalMsg]
      · simp [retryAux, hc, fatalMsg]
    · simp [retryAux, hc, fatalMsg]
  refine ⟨main fuel le, ?_⟩
  intro ha
  subst ha
  exact main 2 none

def c6EnvW : RetryEnv Nat :=
  { call := fun _ =>
      CallResult.err (ClientErr.http (HttpErr.statusCode 500 none))
    jitter := fun _ => 0
    now := fun _ => 0
    reply := fun _ => Reply.gotNone
    workerSet := true }

theorem api_with_retry_fatal_stops_witness :
    api_with_retry c6EnvW stLow
      = { value := none, calls := 1, sleeps := [], refreshes := 0,
          state := stLow, lastError := some "HTTP error: 500",
          panicked := false } :=
  (api_with_retry_fatal_stops c6EnvW 0 0 stLow none
    (ClientErr.http (HttpErr.statusCode 500 none)) rfl (by decide)).2 rfl

/-- C7: for every attempt below MAX_RETRIES, the backoff slept for an HTTP
502, 503 or 504 response is exactly min(2^attempt, 60) seconds: the u64
power cannot wrap there, and the slept value is a closed expression in the
attempt number alone, with no jitter term. -/
theorem api_with_retry_5xx_backoff {R : Type} (env : RetryEnv R)
    (fuel a : Nat) (st : SharedState) (le : Option String)
    (s : Nat) (hdr : Option String)
    (ha : a < MAX_RETRIES) (h5 : 502 ≤ s ∧ s ≤ 504)
    (hc : env.call a = CallResult.err (ClientErr.http (HttpErr.statusCode s hdr))) :
    backoff5xx a = min (2 ^ a) 60
    ∧ (retryAux env (fuel + 1) a st le).sleeps
        = min (2 ^ a) 60
            :: (retryAux env fuel (a + 1) st
                  (some ("Server error: " ++ toString s))).sleeps := by
  have hb : backoff5xx a = min (2 ^ a) 60 := by
    have hlt : 2 ^ a < U64_MOD := by
      have h1 : (2 : Nat) ^ a ≤ 2 ^ 2 :=
        Nat.pow_le_pow_right (by norm_num) (by simp [MAX_RETRIES] at ha; omega)
      have h2 : (2 : Nat) ^ 2 < U64_MOD := by norm_num [U64_MOD]
      omega
    simp [backoff5xx, Nat.mod_eq_of_lt hlt, MAX_BACKOFF_SECS]
  have hs1 : ¬ s = 429 := by omega
  have hs2 : ¬ s = 401 := by omega
  refine ⟨hb, ?_⟩
  rw [← hb]
  simp [retryAux, hc, hs1, hs2, h5]

def c7EnvW : RetryEnv Nat :=
  { call := fun _ =>
      CallResult.err (ClientErr.http (HttpErr.statusCode 503 none))
    jitter := fun _ => 7
    now := fun _ => 0
    reply := fun _ => Reply.gotNone
    workerSet := true }

theorem api_with_retry_5xx_backoff_witness :
    (retryAux c7EnvW 2 1 stLow none).sleeps
      = min (2 ^ 1) 60
          :: (retryAux c7EnvW 1 2 stLow
                (some ("Server error: " ++ toString 503))).sleeps :=
  (api_with_retry_5xx_backoff c7EnvW 1 1 stLow none 503 none
    (by decide) (by decide) rfl).2

def c3Env : RetryEnv Nat :=
  { call := fun _ =>
      CallResult.err (ClientErr.http (HttpErr.statusCode 429 (some "100")))
    jitter := fun _ => 0
    now := fun _ => 0
    reply := fun _ => Reply.gotNone
    workerSet := true }

/-- C3 counterexample: a 429 response with header Retry-After: 100 parses
to retry_after = 100, yet every sleep of the run is 60 seconds, so the
claimed lower bound retry_after on the computed sleep fails.  Moreover the
u64 wrap in retry_after + jitter can drive the computed backoff to 0 for a
parseable maximal header value, so even a capped lower bound needs a
no-overflow hypothesis. -/
theorem backoff429_lower_bound_fails :
    parse_u64 "100" = some 100
    ∧ (api_with_retry c3Env stLow).sleeps = [60, 60, 60]
    ∧ ¬ (100 ≤ 60)
    ∧ parse_u64 "18446744073709551615" = some (U64_MOD - 1)
    ∧ backoff429 (U64_MOD - 1) 1 0 = 0 := by
  refine ⟨by decide, by decide, by decide, by decide, by decide⟩

/-- C3 amended: for a 429 handled at a given attempt, the slept backoff is
backoff429 applied to the parsed Retry-After value (default 1), the drawn
jitter and the attempt; provided (retry_after + 3) * 2^attempt does not
overflow u64, the backoff lies between min(retry_after, 60) and
min((retry_after + 3) * 2^attempt, 60). -/
theorem backoff429_bounds (ra j a : Nat) (hj : j < 3) (ha : a < MAX_RETRIES)
    (hov : (ra + 3) * 2 ^ a < U64_MOD) :
    min ra 60 ≤ backoff429 ra j a
    ∧ backoff429 ra j a ≤ min ((ra + 3) * 2 ^ a) 60
    ∧ (∀ (R : Type) (env : RetryEnv R) (fuel : Nat) (st : SharedState)
        (le : Option String) (hdr : Option String),
        env.call a = CallResult.err (ClientErr.http (HttpErr.statusCode 429 hdr)) →
        (retryAux env (fuel + 1) a st le).sleeps
          = backoff429 ((hdr.bind parse_u64).getD 1) (env.jitter a) a
              :: (retryAux env fuel (a + 1) st
                    (some ("Rate limited: " ++ toString 429))).sleeps) := by
  have hpow_pos : 0 < 2 ^ a := Nat.pos_pow_of_pos a (by norm_num)
  have hle3 : ra + j ≤ ra + 3 := by omega
  have hmul : (ra + j) * 2 ^ a ≤ (ra + 3) * 2 ^ a :=
    Nat.mul_le_mul_right _ hle3
  have hsum_lt : ra + j < U64_MOD := by
    have h1 : ra + 3 ≤ (ra + 3) * 2 ^ a :=
      Nat.le_mul_of_pos_right _ hpow_pos
    omega
  have hpow_lt : 2 ^ a < U64_MOD := by
    have h1 : (2 : Nat) ^ a ≤ 2 ^ 2 :=
      Nat.pow_le_pow_right (by norm_num) (by simp [MAX_RETRIES] at ha; omega)
    have h2 : (2 : Nat) ^ 2 < U64_MOD := by norm_num [U64_MOD]
    omega
  have hprod_lt : (ra + j) * 2 ^ a < U64_MOD := by omega
  have hb : backoff429 ra j a = min ((ra + j) * 2 ^ a) 60 := by
    simp [backoff429, Nat.mod_eq_of_lt hsum_lt, Nat.shiftLeft_eq,
      Nat.mod_eq_of_lt hpow_lt, Nat.mod_eq_of_lt hprod_lt, MAX_BACKOFF_SECS]
  refine ⟨?_, ?_, ?_⟩
  · have hra : ra ≤ (ra + j) * 2 ^ a := by
      have h1 : ra + j ≤ (ra + j) * 2 ^ a :=
        Nat.le_mul_of_pos_right _ hpow_pos
      omega
    rw [hb]
    omega
  · rw [hb]
    omega
  · intro R env fuel st le hdr hc
    simp [retryAux, hc]

theorem backoff429_bounds_witness :
    min 5 60 ≤ backoff429 5 0 1
    ∧ backoff429 5 0 1 ≤ min ((5 + 3) * 2 ^ 1) 60 :=
  ⟨(backoff429_bounds 5 0 1 (by decide) (by decide) (by decide)).1,
   (backoff429_bounds 5 0 1 (by decide) (by decide) (by decide)).2.1⟩

def c2Env : RetryEnv Nat :=
  { call := fun k => if k = 0
      then CallResult.err (ClientErr.http (HttpErr.statusCode 401 none))
      else CallResult.ok 42
    jitter := fun _ => 0
    now := fun _ => 0
    reply := fun _ => Reply.gotNone
    workerSet := true }

/-- C2 counterexample: a 401 whose triggered refresh fails (the worker
replies with the absence signal, the shared state is left unchanged) does
not terminate the call: the loop retries, invokes the closure a second
time and returns its value.  The claimed behaviour would be value = none
after a single invocation. -/
theorem api_with_retry_401_failed_refresh_retries :
    c2Env.reply 0 = Reply.gotNone
    ∧ update_token (c2Env.now 0) c2Env.workerSet (c2Env.reply 0) stLow
        = UpdateTokenResult.handle stLow
    ∧ (api_with_retry c2Env stLow).value = some 42
    ∧ (api_with_retry c2Env stLow).calls = 2
    ∧ (api_with_retry c2Env stLow).refreshes = 1
    ∧ (api_with_retry c2Env stLow).sleeps = [] := by
  refine ⟨rfl, by decide, by decide, by decide, by decide, by decide⟩

/-- C2 amended: a 401 invokes update_token once for that iteration; if
update_token attempted a refresh (it returned a handle), the loop retries
immediately with no sleep whether the refresh succeeded or failed, adding
one to the invocation and refresh counts; if update_token declined to
refresh (expiry more than five minutes away), the call terminates at once
with None, no sleep and no further invocation.  Refresh attempts never
exceed closure invocations, so each iteration performs at most one. -/
theorem api_with_retry_401_behaviour {R : Type} (env : RetryEnv R)
    (fuel a : Nat) (st : SharedState) (le : Option String)
    (hdr : Option String)
    (hc : env.call a = CallResult.err (ClientErr.http (HttpErr.statusCode 401 hdr))) :
    (∀ st', update_token (env.now a) env.workerSet (env.reply a) st
        = UpdateTokenResult.handle st' →
      retryAux env (fuel + 1) a st le
        = { value := (retryAux env fuel (a + 1) st' le).value,
            calls := (retryAux env fuel (a + 1) st' le).calls + 1,
            sleeps := (retryAux env fuel (a + 1) st' le).sleeps,
            refreshes := (retryAux env fuel (a + 1) st' le).refreshes + 1,
            state := (retryAux env fuel (a + 1) st' le).state,
            lastError := (retryAux env fuel (a + 1) st' le).lastError,
            panicked := (retryAux env fuel (a + 1) st' le).panicked })
    ∧ (update_token (env.now a) env.workerSet (env.reply a) st
        = UpdateTokenResult.noHandle →
      retryAux env (fuel + 1) a st le
        = { value := none, calls := 1, sleeps := [], refreshes := 0,
            state := st, lastError := some "Token refresh failed",
            panicked := false })
    ∧ (∀ st0, (api_with_retry env st0).refreshes
        ≤ (api_with_retry env st0).calls) := by
  refine ⟨?_, ?_, ?_⟩
  · intro st' hu
    simp [retryAux, hc, hu]
  · intro hu
    simp [retryAux, hc, hu]
  · intro st0
    exact retryAux_refreshes_le_calls env MAX_RETRIES 0 st0 none

def c2StFresh : SharedState := { token := none, token_expiration := 100000 }

theorem api_with_retry_401_behaviour_witness :
    retryAux c2Env 1 0 c2StFresh none
      = { value := none, calls := 1, sleeps := [], refreshes := 0,
          state := c2StFresh, lastError := some "Token refresh failed",
          panicked := false } :=
  (api_with_retry_401_behaviour c2Env 0 0 c2StFresh none none rfl).2.1
    (by decide)

def c9St : SharedState :=
  { token := some { access_token := "old", expires_in := 3600, scopes := [],
                    expires_at := none, refresh_token := none }
    token_expiration := 100 }

def c9Wt : WorkerToken :=
  { access_token := "fresh", expires_in := 3600, scopes := [] }

/-- C9 counterexample: when the triggered refresh fails (worker absence
signal or closed reply channel) the shared state is indeed left unchanged,
but the failure is not propagated to the caller: update_token hands back a
handle resolving to unit exactly as on a successful refresh, so the
caller-visible outcome of the failing run equals that of a succeeding run
even though the succeeding run changes the state. -/
theorem update_token_failure_not_propagated :
    update_token 0 true Reply.gotNone c9St = UpdateTokenResult.handle c9St
    ∧ update_token 0 true Reply.recvErr c9St = UpdateTokenResult.handle c9St
    ∧ update_token_visible (update_token 0 true Reply.gotNone c9St)
        = update_token_visible (update_token 0 true (Reply.gotToken c9Wt) c9St)
    ∧ update_token 0 true (Reply.gotToken c9Wt) c9St
        ≠ UpdateTokenResult.handle c9St := by
  refine ⟨by decide, by decide, by decide, by decide⟩

/-- C9 amended: when a refresh triggered by update_token fails, the shared
token and expiration are left unchanged, but the failure is only logged,
never propagated: the caller receives a unit-resolving handle exactly as
on success.  On success both fields are replaced by whole-value overwrite
with the worker token and its fresh expiry. -/
theorem update_token_failure_keeps_state (now : Int) (st : SharedState)
    (r : Reply) (hexp : st.token_expiration - now ≤ 300)
    (hfail : r = Reply.recvErr ∨ r = Reply.gotNone) :
    update_token now true r st = UpdateTokenResult.handle st
    ∧ (∀ t, update_token now true (Reply.gotToken t) st
        = UpdateTokenResult.handle
            { token := some (tokenFromWorker t)
              token_expiration := now + (t.expires_in : Int) })
    ∧ update_token_visible (update_token now true r st) = some (some ()) := by
  have hcond : ¬ (st.token_expiration - now > 60 * 5) := by omega
  have hfixed : update_token now true r st = UpdateTokenResult.handle st := by
    rcases hfail with h | h
    · subst h; exact if_neg hcond
    · subst h; exact if_neg hcond
  refine ⟨hfixed, ?_, ?_⟩
  · intro t
    exact if_neg hcond
  · rw [hfixed]
    rfl

theorem update_token_failure_keeps_state_witness :
    update_token 0 true Reply.recvErr stLow = UpdateTokenResult.handle stLow :=
  (update_token_failure_keeps_state 0 stLow Reply.recvErr (by decide)
    (Or.inl rfl)).1

/-! ## Theorems about authentication.rs (claim C4) -/

/-- C4: authenticate decides needs_auth exactly as claimed: a cached token
that loads and is unexpired short-circuits without the OAuth flow; a loaded
but expired token triggers a refresh whose success saves the token and
skips the flow and whose failure leads to the flow; an absent cache file,
a read failure or a parse failure is treated as no cached token, not a
fatal error, and leads to the flow. -/
theorem authenticate_needs_auth_spec (env : AuthEnv) :
    (∀ s tok, env.file = CacheFile.content s → env.parse s = Except.ok tok →
        env.tokExpired tok = false →
        authenticate_needs_auth env = Except.ok (false, false))
    ∧ (∀ s tok, env.file = CacheFile.content s → env.parse s = Except.ok tok →
        env.tokExpired tok = true →
        (∀ t, env.refresh = Except.ok t → env.save1 = Except.ok () →
            authenticate_needs_auth env = Except.ok (false, true))
        ∧ (∀ e, env.refresh = Except.error e →
            authenticate_needs_auth env = Except.ok (true, false)))
    ∧ (env.file = CacheFile.absent →
        authenticate_needs_auth env = Except.ok (true, false))
    ∧ (∀ m, env.file = CacheFile.readError m →
        authenticate_needs_auth env = Except.ok (true, false))
    ∧ (∀ s m, env.file = CacheFile.content s → env.parse s = Except.error m →
        authenticate_needs_auth env = Except.ok (true, false)) := by
  refine ⟨?_, ?_, ?_, ?_, ?_⟩
  · intro s tok hfile hparse hexp
    simp [authenticate_needs_auth, load_token_from_file, hfile, hparse, hexp]
  · intro s tok hfile hparse hexp
    constructor
    · intro t hrefresh hsave
      simp [authenticate_needs_auth, load_token_from_file, hfile, hparse,
        hexp, hrefresh, hsave]
    · intro e hrefresh
      simp [authenticate_needs_auth, load_token_from_file, hfile, hparse,
        hexp, hrefresh]
  · intro hfile
    simp [authenticate_needs_auth, load_token_from_file, hfile]
  · intro m hfile
    simp [authenticate_needs_auth, load_token_from_file, hfile]
  · intro s m hfile hparse
    simp [authenticate_needs_auth, load_token_from_file, hfile, hparse]

def c4EnvW : AuthEnv :=
  { file := CacheFile.absent
    parse := fun _ => Except.error "no data"
    tokExpired := fun _ => true
    refresh := Except.error "refresh failed"
    save1 := Except.ok () }

theorem authenticate_needs_auth_spec_witness :
    authenticate_needs_auth c4EnvW = Except.ok (true, false) :=
  (authenticate_needs_auth_spec c4EnvW).2.2.1 rfl

/-! ## Theorems about overwrite_playlist (claim C10) -/

theorem appendLoopFuel_chunk_le {A : Type} (ok : Nat → Bool) :
    ∀ (fuel : Nat) (rem : List A) (i : Nat),
      ∀ c ∈ appendLoopFuel ok fuel rem i, c.length ≤ 100 := by
  intro fuel
  induction fuel with
  | zero =>
      intro rem i c hc
      simp only [appendLoopFuel, List.mem_singleton] at hc
      subst hc
      simp [List.length_take]
  | succ fuel ih =>
      intro rem i c hc
      rw [appendLoopFuel] at hc
      by_cases hcond : (ok i && !(rem.drop 100).isEmpty) = true
      · rw [if_pos hcond] at hc
        rcases List.mem_cons.mp hc with h | h
        · subst h
          simp [List.length_take]
        · exact ih (rem.drop 100) (i + 1) c h
      · rw [if_neg hcond] at hc
        simp only [List.mem_singleton] at hc
        subst hc
        simp [List.length_take]

theorem appendLoopFuel_flatten {A : Type} (ok : Nat → Bool)
    (hok : ∀ j, ok j = true) :
    ∀ (fuel : Nat) (rem : List A) (i : Nat), rem.length ≤ fuel →
      (appendLoopFuel ok fuel rem i).flatten = rem := by
  intro fuel
  induction fuel with
  | zero =>
      intro rem i hlen
      have hnil : rem = [] := List.eq_nil_of_length_eq_zero (by omega)
      subst hnil
      simp [appendLoopFuel]
  | succ fuel ih =>
      intro rem i hlen
      rw [appendLoopFuel]
      by_cases hrest : (rem.drop 100).isEmpty = true
      · rw [if_neg (by simp [hrest])]
        have hle : rem.length ≤ 100 := by
          have := List.isEmpty_iff.mp hrest
          have hlen2 := List.length_drop 100 rem
          rw [this] at hlen2
          simp at hlen2
          omega
        simp [List.take_of_length_le hle]
      · rw [if_pos (by simp [hok i, hrest])]
        have hgt : 100 < rem.length := by
          by_contra hle
          exact hrest (by simp [List.drop_eq_nil_of_le (by omega : rem.length ≤ 100)])
        have hrec := ih (rem.drop 100) (i + 1)
          (by simp [List.length_drop]; omega)
        simp only [List.flatten_cons, hrec]
        exact List.take_append_drop 100 rem

theorem appendLoopFuel_length_le {A : Type} (ok : Nat → Bool) (j : Nat)
    (hj : ok j = false) :
    ∀ (fuel : Nat) (rem : List A) (i : Nat), i ≤ j →
      (appendLoopFuel ok fuel rem i).length ≤ j + 1 - i := by
  intro fuel
  induction fuel with
  | zero =>
      intro rem i hij
      simp only [appendLoopFuel, List.length_singleton]
      omega
  | succ fuel ih =>
      intro rem i hij
      rw [appendLoopFuel]
      by_cases hcond : (ok i && !(rem.drop 100).isEmpty) = true
      · rw [if_pos hcond]
        have hoki : ok i = true := by
          have hcc := hcond
          simp only [Bool.and_eq_true] at hcc
          exact hcc.1
        have hine : i ≠ j := by
          intro h
          rw [h, hj] at hoki
          exact Bool.noConfusion hoki
        have hrec := ih (rem.drop 100) (i + 1) (by omega)
        simp only [List.length_cons]
        omega
      · rw [if_neg hcond]
        simp only [List.length_singleton]
        omega

theorem map_reqPayload_appendItems {A : Type} (l : List (List A)) :
    List.map reqPayload (List.map PlaylistReq.appendItems l) = l := by
  induction l with
  | nil => rfl
  | cons c t ih => simp [reqPayload, ih]

/-- C10: overwrite_playlist issues a replace request carrying the first
min(length, 100) tracks, followed only by append requests of at most 100
tracks each; when every request succeeds the issued payloads concatenate
back to the whole input in order, and as soon as some request fails the
total number of issued requests is at most that request's index plus one. -/
theorem overwrite_playlist_spec {A : Type} (tracks : List A)
    (ok : Nat → Bool) :
    (overwrite_playlist tracks ok).head?
        = some (PlaylistReq.replaceItems (tracks.take 100))
    ∧ (tracks.take 100).length = min tracks.length 100
    ∧ (∀ r ∈ (overwrite_playlist tracks ok).tail,
        ∃ c, r = PlaylistReq.appendItems c ∧ c.length ≤ 100)
    ∧ ((∀ j, ok j = true) →
        ((overwrite_playlist tracks ok).map reqPayload).flatten = tracks)
    ∧ (∀ j, ok j = false → (overwrite_playlist tracks ok).length ≤ j + 1) := by
  refine ⟨rfl, by rw [List.length_take]; omega, ?_, ?_, ?_⟩
  · intro r hr
    simp only [overwrite_playlist, List.tail_cons] at hr
    by_cases h0 : ok 0 = true
    · rw [if_pos h0] at hr
      by_cases hrest : (tracks.drop 100).isEmpty = true
      · rw [if_pos hrest] at hr
        exact absurd hr (List.not_mem_nil r)
      · rw [if_neg hrest] at hr
        rcases List.mem_map.mp hr with ⟨c, hc, hcr⟩
        exact ⟨c, hcr.symm,
          appendLoopFuel_chunk_le ok (tracks.drop 100).length
            (tracks.drop 100) 1 c hc⟩
    · rw [if_neg h0] at hr
      exact absurd hr (List.not_mem_nil r)
  · intro hok
    simp only [overwrite_playlist, List.map_cons, List.flatten_cons,
      reqPayload, if_pos (hok 0)]
    by_cases hrest : (tracks.drop 100).isEmpty = true
    · rw [if_pos hrest]
      have hle : tracks.length ≤ 100 := by
        have := List.isEmpty_iff.mp hrest
        have hlen2 := List.length_drop 100 tracks
        rw [this] at hlen2
        simp at hlen2
        omega
      simp [List.take_of_length_le hle]
    · rw [if_neg hrest]
      rw [map_reqPayload_appendItems]
      rw [show append_loop ok (tracks.drop 100) 1
            = appendLoopFuel ok (tracks.drop 100).length (tracks.drop 100) 1
          from rfl]
      rw [appendLoopFuel_flatten ok hok (tracks.drop 100).length
        (tracks.drop 100) 1 (le_refl _)]
      exact List.take_append_drop 100 tracks
  · intro j hjf
    simp only [overwrite_playlist, List.length_cons]
    by_cases h0 : ok 0 = true
    · have hj0 : j ≠ 0 := by
        intro h
        subst h
        rw [h0] at hjf
        exact Bool.noConfusion hjf
      rw [if_pos h0]
      by_cases hrest : (tracks.drop 100).isEmpty = true
      · rw [if_pos hrest]
        simp
      · rw [if_neg hrest]
        rw [show append_loop ok (tracks.drop 100) 1
              = appendLoopFuel ok (tracks.drop 100).length (tracks.drop 100) 1
            from rfl]
        have hlen := appendLoopFuel_length_le ok j hjf
          (tracks.drop 100).length (tracks.drop 100) 1 (by omega)
        simp only [List.length_map]
        omega
    · rw [if_neg h0]
      simp

theorem overwrite_playlist_spec_witness :
    ((overwrite_playlist [1, 2, 3] (fun _ => true)).map reqPayload).flatten
      = [1, 2, 3] :=
  (overwrite_playlist_spec [1, 2, 3] (fun _ => true)).2.2.2.1 (fun _ => rfl)
